import Mathlib

/-!
Verification of the real-time synchronization and alerting layer of the
ride-sync application, as a shallow embedding of the TypeScript source.

Embedded components:
* Alert Engine (`src/hooks/use-alert-system.ts`): local alert list,
  server-alert mirror, auto-expiry timers, domain senders.
* Presence Poller (`src/hooks/use-real-time-updates.ts`): `fetchUpdates`.
* Anomaly Detector and map member feed (`src/components/alert-center.tsx`,
  `MapDashboard`): staleness pass and the latitude/longitude filter.
* Marker Reconciler (`GoogleMap.updateMarkers`): reconciliation of the
  rendered marker store against the member list, with an explicit log of
  create/update/remove operations.
* Position Capture (`src/hooks/use-location-sync.ts`): the state record and
  the event handlers (`stopTracking`, geolocation callbacks, upload
  resolution), as a step function over an explicit event trace.

Asynchronous backend calls are embedded by passing the call's outcome
(`ApiResult`) as an explicit argument: `success` carries the envelope
`{success:true, data}`, `failure` is `{success:false}`, and `netError` is a
thrown transport-level exception (the `catch` branch of the source).
Timestamps and coordinates are embedded as `Int` (JS epoch-millisecond
numbers); fresh alert ids, produced in the source from `Date.now()` plus a
random suffix, are taken as explicit arguments.
-/

namespace RideSync

/-- Local alert category, `Alert["type"]` in `use-alert-system.ts`. -/
inductive AlertType where
  | info
  | warning
  | error
  | success
  | emergency
deriving DecidableEq, Repr

/-- Server alert category, `Alert["type"]` in `lib/api.ts`. -/
inductive ApiAlertType where
  | location_update
  | status_change
  | emergency
  | traffic
  | system
deriving DecidableEq, Repr

/-- Alert severity, `Alert["severity"]` in `lib/api.ts`. -/
inductive Severity where
  | low
  | medium
  | high
  | critical
deriving DecidableEq, Repr

/-- Outcome of an awaited backend call: the uniform response envelope
(`success` / `failure` for `{success:false}`) or a thrown transport
exception (`netError`). -/
inductive ApiResult (α : Type) where
  | success (data : α)
  | failure
  | netError
deriving DecidableEq, Repr

/-- The local `Alert` record of `use-alert-system.ts`: `{id, message, type,
timestamp, duration?, rideId?, severity?}`. `addAlert` always sets
`duration`; the merged view of a server alert leaves it absent. -/
structure Alert where
  id : String
  message : String
  type : AlertType
  timestamp : Int
  duration : Option Int
  rideId : Option String
  severity : Option Severity
deriving DecidableEq, Repr

/-- The server-side `Alert` record of `lib/api.ts` (fields the engine
reads; `createdAt` as epoch milliseconds). -/
structure ApiAlert where
  id : String
  rideId : String
  userId : String
  type : ApiAlertType
  message : String
  severity : Severity
  createdAt : Int
deriving DecidableEq, Repr

/-- Options of `useAlertSystem({rideId, enableServerSync})`. -/
structure AlertConfig where
  rideId : Option String
  enableServerSync : Bool
deriving DecidableEq, Repr

/-- State of the Alert Engine: the two alert populations plus the set of
pending auto-dismiss timers scheduled by `addAlert` (`setTimeout`),
recorded as (alert id, duration) pairs. -/
structure AlertState where
  alerts : List Alert
  serverAlerts : List ApiAlert
  timers : List (String × Int)
deriving DecidableEq, Repr

/-- The engine state before any alert is created. -/
def AlertState.empty : AlertState :=
  { alerts := [], serverAlerts := [], timers := [] }

/-- Truthiness of the configured ride id, as tested by `if (!rideId)
return` in the senders: `undefined` and the empty string are falsy. -/
def hasRide (cfg : AlertConfig) : Bool :=
  match cfg.rideId with
  | none => false
  | some r => !r.isEmpty

/-- `addAlert(message, type, duration)` of `use-alert-system.ts` lines
45-68: build the alert record (capturing the hook's `rideId`), append it
to the local list, and when `duration > 0` schedule an auto-removal timer
for it.  `freshId` is the generated unique id and `now` the creation
timestamp. -/
def addAlert (cfg : AlertConfig) (s : AlertState) (freshId : String) (now : Int)
    (message : String) (type : AlertType) (duration : Int) : AlertState :=
  let alert : Alert :=
    { id := freshId, message := message, type := type, timestamp := now,
      duration := some duration, rideId := cfg.rideId, severity := none }
  { s with
    alerts := s.alerts ++ [alert],
    timers := if duration > 0 then s.timers ++ [(freshId, duration)] else s.timers }

/-- `removeAlert(id)`: drop the alert with the given id from the local
list. -/
def removeAlert (s : AlertState) (id : String) : AlertState :=
  { s with alerts := s.alerts.filter (fun alert => alert.id ≠ id) }

/-- `clearAllAlerts()`: reset the local alert list to `[]`. -/
def clearAllAlerts (s : AlertState) : AlertState :=
  { s with alerts := [] }

/-- `sendServerAlert(message, type, severity)` lines 78-100: bail out when
no ride id is configured; otherwise push to the backend and, only when the
response has `success:true`, add a local alert (category `emergency` when
the server category was `emergency`, else `info`) with duration `0`.  A
thrown network error is converted into a local `error` alert with the
default duration 5000.  A `success:false` response falls through the
`if` with no `else`.  The returned `Bool` records whether the backend was
contacted. -/
def sendServerAlert (cfg : AlertConfig) (s : AlertState) (freshId : String) (now : Int)
    (message : String) (type : ApiAlertType) (severity : Severity)
    (result : ApiResult ApiAlert) : AlertState × Bool :=
  if !hasRide cfg then (s, false)
  else
    match result with
    | .success _ =>
        (addAlert cfg s freshId now message
          (if type = ApiAlertType.emergency then AlertType.emergency else AlertType.info) 0,
         true)
    | .failure => (s, true)
    | .netError =>
        (addAlert cfg s freshId now "Failed to send alert to server" AlertType.error 5000,
         true)

/-- `sendEmergencyAlert(message)` lines 102-117: bail out when no ride id
is configured; otherwise call the emergency endpoint and, on
`success:true`, add a local `emergency` alert with the message prefixed by
`EMERGENCY: ` and duration `0`.  A thrown network error is converted into
a local `error` alert with the default duration 5000; a `success:false`
response adds nothing. -/
def sendEmergencyAlert (cfg : AlertConfig) (s : AlertState) (freshId : String) (now : Int)
    (message : String) (result : ApiResult ApiAlert) : AlertState × Bool :=
  if !hasRide cfg then (s, false)
  else
    match result with
    | .success _ =>
        (addAlert cfg s freshId now ("EMERGENCY: " ++ message) AlertType.emergency 0, true)
    | .failure => (s, true)
    | .netError =>
        (addAlert cfg s freshId now "Failed to send emergency alert" AlertType.error 5000,
         true)

/-- The merged view of one server alert, as built inside `allAlerts`
(lines 163-173): emergency category is kept, every other server category
is presented as `info`; no `duration` field is set. -/
def serverAlertView (sa : ApiAlert) : Alert :=
  { id := sa.id, message := sa.message,
    type := if sa.type = ApiAlertType.emergency then AlertType.emergency else AlertType.info,
    timestamp := sa.createdAt, duration := none,
    rideId := some sa.rideId, severity := some sa.severity }

/-- `allAlerts` (lines 163-173): the local alerts followed by the mapped
server alerts. -/
def allAlerts (s : AlertState) : List Alert :=
  s.alerts ++ s.serverAlerts.map serverAlertView

/-! ### Presence Poller (`use-real-time-updates.ts`) -/

/-- The `user` sub-record of a ride member, as read by `MapDashboard`. -/
structure MemberUser where
  id : String
  name : String
  username : String
  email : String
deriving DecidableEq, Repr

/-- A `RideMember` entry of the roster returned by `getRideMembers`:
latitude/longitude and `lastLocationUpdate` may be absent (the source
guards them with `typeof ... === "number"` and a truthiness check). -/
structure RideMember where
  id : String
  user : MemberUser
  status : String
  latitude : Option Int
  longitude : Option Int
  lastLocationUpdate : Option Int
deriving DecidableEq, Repr

/-- State of `useRealTimeUpdates`: member snapshot, connectivity flag,
last error and last successful update time. -/
structure PollState where
  members : List RideMember
  isConnected : Bool
  error : Option String
  lastUpdate : Option Int
deriving DecidableEq, Repr

/-- The poller's initial state (`[]`, `false`, `null`, `null`). -/
def PollState.init : PollState :=
  { members := [], isConnected := false, error := none, lastUpdate := none }

/-- `fetchUpdates` (lines 17-34): on `success:true` replace the snapshot
wholesale, stamp `lastUpdate`, clear the error and set `isConnected`;
on `success:false` record an error and drop the connection flag; on a
thrown network error likewise.  The member snapshot is written only in
the success branch. -/
def fetchUpdates (s : PollState) (now : Int)
    (result : ApiResult (List RideMember)) : PollState :=
  match result with
  | .success data =>
      { s with members := data, lastUpdate := some now, error := none, isConnected := true }
  | .failure =>
      { s with error := some "Failed to fetch ride updates", isConnected := false }
  | .netError =>
      { s with error := some "Network error while fetching updates", isConnected := false }

/-! ### Anomaly Detector (`MapDashboard`, `alert-center.tsx` lines 153-169) -/

/-- The arguments of one `addAlert(message, type, duration)` request
issued by a component into the Alert Engine. -/
structure AlertRequest where
  message : String
  type : AlertType
  duration : Int
deriving DecidableEq, Repr

/-- The staleness test of the anomaly effect: `member.lastLocationUpdate`
is truthy and `now - new Date(member.lastLocationUpdate).getTime() >
5 * 60 * 1000`. -/
def staleAt (now : Int) (m : RideMember) : Bool :=
  match m.lastLocationUpdate with
  | some t => now - t > 5 * 60 * 1000
  | none => false

/-- The alert request the anomaly effect issues for a stale member. -/
def anomalyRequest (m : RideMember) : AlertRequest :=
  { message := "Location anomaly: " ++ m.user.name
      ++ " has not updated location for over 5 minutes",
    type := AlertType.warning, duration := 10000 }

/-- One pass of the anomaly-detection effect: bail out on an empty
roster, then for each member in order issue a `warning`/10000 request
when the staleness test holds.  The result is the ordered list of
`addAlert` requests of the pass. -/
def anomalyPass (now : Int) (members : List RideMember) : List AlertRequest :=
  if members.isEmpty then []
  else
    members.foldr
      (fun m acc => if staleAt now m then anomalyRequest m :: acc else acc) []

/-! ### Map member feed (`MapDashboard`, `alert-center.tsx` lines 397-410) -/

/-- The member record handed to `GoogleMap` (fields the reconciler
reads: id and the lat/lng pair). -/
structure MapMember where
  id : String
  name : String
  status : String
  location : Int × Int
deriving DecidableEq, Repr

/-- The filter-and-map feeding `GoogleMap`: keep members whose latitude
and longitude are both numbers, and hand each over with its own
coordinates. -/
def mapFeed (members : List RideMember) : List MapMember :=
  (members.filter (fun m => m.latitude.isSome && m.longitude.isSome)).map
    (fun m =>
      { id := m.id, name := m.user.name, status := m.status,
        location := (m.latitude.getD 0, m.longitude.getD 0) })

/-! ### Marker Reconciler (`GoogleMap.updateMarkers`) -/

/-- One marker operation performed by `updateMarkers`: creating a marker
(`new google.maps.Marker`), updating an existing one in place
(`marker.setPosition`), or removing one (`marker.setMap(null)` +
`markers.delete`). -/
inductive MarkerOp where
  | create (id : String) (pos : Int × Int)
  | update (id : String) (pos : Int × Int)
  | remove (id : String)
deriving DecidableEq, Repr

/-- The marker store `markersRef.current : Map<string, Marker>`, in
insertion order, each marker reduced to its current position. -/
abbrev MarkerStore := List (String × (Int × Int))

/-- Key lookup in the marker store (`markers.get(id)` semantics: the
store holds at most one entry per key). -/
def storeGet : MarkerStore → String → Option (Int × Int)
  | [], _ => none
  | e :: rest, id => if e.1 == id then some e.2 else storeGet rest id

/-- `marker.setPosition` on the marker stored under `id`: rewrite that
entry's position in place. -/
def storeSet (store : MarkerStore) (id : String) (pos : Int × Int) : MarkerStore :=
  store.map (fun e => if e.1 == id then (e.1, pos) else e)

/-- The removal phase of `updateMarkers` (lines 491-497): drop every
marker whose id no longer occurs in `members`, logging a remove
operation per dropped marker. -/
def removePhase (store : MarkerStore) (members : List MapMember) :
    MarkerStore × List MarkerOp :=
  (store.filter (fun e => members.any (fun m => m.id == e.1)),
   (store.filter (fun e => !members.any (fun m => m.id == e.1))).map
     (fun e => MarkerOp.remove e.1))

/-- The add-or-update phase of `updateMarkers` (lines 499-540): for each
member in order, update the existing marker's position when one is
stored under the member's id, otherwise create and store a new marker at
the member's location. -/
def addUpdatePhase (members : List MapMember) (store : MarkerStore) :
    MarkerStore × List MarkerOp :=
  match members with
  | [] => (store, [])
  | m :: rest =>
      match storeGet store m.id with
      | some _ =>
          let r := addUpdatePhase rest (storeSet store m.id m.location)
          (r.1, MarkerOp.update m.id m.location :: r.2)
      | none =>
          let r := addUpdatePhase rest (store ++ [(m.id, m.location)])
          (r.1, MarkerOp.create m.id m.location :: r.2)

/-- `updateMarkers`: the removal phase over the current store followed by
the add-or-update phase over the member list, with the combined
operation log. -/
def updateMarkers (store : MarkerStore) (members : List MapMember) :
    MarkerStore × List MarkerOp :=
  let r := removePhase store members
  let a := addUpdatePhase members r.1
  (a.1, r.2 ++ a.2)

/-! ### Position Capture (`use-location-sync.ts`) -/

/-- The `LocationData` sample built by `handleSuccess`. -/
structure LocationData where
  latitude : Int
  longitude : Int
  accuracy : Option Int
  timestamp : Int
deriving DecidableEq, Repr

/-- State of `useLocationSync`. -/
structure LocState where
  isTracking : Bool
  currentLocation : Option LocationData
  error : Option String
  lastSyncTime : Option Int
deriving DecidableEq, Repr

/-- The hook's initial state. -/
def LocState.init : LocState :=
  { isTracking := false, currentLocation := none, error := none, lastSyncTime := none }

/-- Geolocation failure classification of `handleError`. -/
inductive GeoErrorCode where
  | permissionDenied
  | positionUnavailable
  | timeout
  | other
deriving DecidableEq, Repr

/-- The user-facing message `handleError` selects for each code
(default: "Unable to get location"). -/
def geoErrorMessage (code : GeoErrorCode) : String :=
  match code with
  | .permissionDenied => "Location access denied by user"
  | .positionUnavailable => "Location information unavailable"
  | .timeout => "Location request timed out"
  | .other => "Unable to get location"

/-- Events observed by the Position Capture state: the exported
`startTracking`/`stopTracking` calls, a geolocation success or error
callback (from `getCurrentPosition` or `watchPosition`), and the
resolution of an in-flight position upload
(`syncLocationToServer`). -/
inductive LocEvent where
  | start
  | stop
  | geoSuccess (lat lng acc now : Int)
  | geoError (code : GeoErrorCode)
  | syncDone (now : Int) (result : ApiResult Unit)
deriving DecidableEq, Repr

/-- One event step of `useLocationSync`:
* `start`: `setIsTracking(true)` followed by the effect running
  `startTracking`, which sets `isTracking = true` and clears the error;
* `stop` (`stopTracking`, lines 110-114): clear `isTracking`,
  `currentLocation` and the error;
* `geoSuccess` (`handleSuccess`, lines 62-72): store the new sample as
  `currentLocation` (the triggered upload resolves later as a
  `syncDone` event);
* `geoError` (`handleError`, lines 74-89): record the classified
  message and set `isTracking = false`;
* `syncDone` (`syncLocationToServer`, lines 25-45): on `success:true`
  stamp `lastSyncTime` and clear the error, on `success:false` or a
  thrown network error record the corresponding message. -/
def locStep (s : LocState) : LocEvent → LocState
  | .start => { s with isTracking := true, error := none }
  | .stop => { s with isTracking := false, currentLocation := none, error := none }
  | .geoSuccess lat lng acc now =>
      let locationData : LocationData :=
        { latitude := lat, longitude := lng, accuracy := some acc, timestamp := now }
      { s with currentLocation := some locationData }
  | .geoError code =>
      { s with error := some (geoErrorMessage code), isTracking := false }
  | .syncDone now result =>
      match result with
      | .success _ => { s with lastSyncTime := some now, error := none }
      | .failure => { s with error := some "Failed to sync location to server" }
      | .netError => { s with error := some "Network error while syncing location" }

/-- Run a trace of events from a state. -/
def locRun (s : LocState) (evs : List LocEvent) : LocState :=
  evs.foldl locStep s

/-- Events that can still be delivered after `stopTracking` without the
capture being restarted and without a pending single-fix position
request: the resolution of an in-flight upload, a classified
geolocation error, or another stop.  A `start` (restart) and a
geolocation success callback are excluded. -/
def postStopBenign : LocEvent → Bool
  | .start => false
  | .geoSuccess _ _ _ _ => false
  | _ => true

/-! ## Analysis helpers (spec-side, used only to state and prove
properties of the embedded code) -/

/-- The coordinate filter applied by `MapDashboard` before handing
members to the map: both latitude and longitude are numbers. -/
def hasCoordinates (m : RideMember) : Bool :=
  m.latitude.isSome && m.longitude.isSome

/-- The location the fold of `storeSet`s over a member list leaves under
key `k`: the location of the last member of the list with that id. -/
def lastLoc : List MapMember → String → Option (Int × Int)
  | [], _ => none
  | m :: rest, k =>
      match lastLoc rest k with
      | some p => some p
      | none => if m.id == k then some m.location else none

/-- Pure position-update sweep: apply `storeSet` for each member in
order.  The add-or-update phase degenerates to this sweep when every
member already has a marker. -/
def updOnly (members : List MapMember) (store : MarkerStore) : MarkerStore :=
  members.foldl (fun acc m => storeSet acc m.id m.location) store

/-! ## Fixtures used by counterexamples and witnesses -/

/-- A configuration with a (truthy) ride id and server sync enabled, as
`MapDashboard` uses. -/
def cfgR : AlertConfig := { rideId := some "ride-1", enableServerSync := true }

/-- A two-member roster: one member with known coordinates, one with
neither coordinate. -/
def msWithAndWithout : List RideMember :=
  [ { id := "m1", user := { id := "u1", name := "Ana", username := "ana", email := "a@x" },
      status := "on-route", latitude := some 10, longitude := some 20,
      lastLocationUpdate := some 0 },
    { id := "m2", user := { id := "u2", name := "Bo", username := "bo", email := "b@x" },
      status := "waiting", latitude := none, longitude := none,
      lastLocationUpdate := none } ]

/-- A one-member feed for the reconciler fixtures. -/
def mmAna : MapMember :=
  { id := "m1", name := "Ana", status := "on-route", location := (10, 20) }

/-- A tracking-in-progress Position Capture state. -/
def locTracking : LocState :=
  { isTracking := true,
    currentLocation := some (⟨1, 2, some 5, 0⟩ : LocationData),
    error := none,
    lastSyncTime := none }

/-! ## Claims -/

/-- Claim C1, counterexample: calling `addAlert` with category
`emergency` and requested duration 5000 stores an alert whose duration is
5000 (not 0) and schedules an auto-dismiss timer for it — `addAlert` has
no emergency override, refuting the claim that every emergency-category
`addAlert` call stores duration 0 regardless of the requested
duration. -/
theorem addAlert_emergency_positive_duration_kept :
    (addAlert cfgR AlertState.empty "a1" 0 "help" AlertType.emergency 5000).alerts.map
        Alert.duration = [some 5000]
    ∧ (addAlert cfgR AlertState.empty "a1" 0 "help" AlertType.emergency 5000).alerts.map
        Alert.duration ≠ [some 0]
    ∧ (addAlert cfgR AlertState.empty "a1" 0 "help" AlertType.emergency 5000).timers
        = [("a1", 5000)] := by
  refine ⟨rfl, ?_, rfl⟩
  decide

/-- Claim C1, amended: `addAlert` stores the caller's requested duration
unchanged even for category `emergency`; an emergency alert created with
requested duration 0 — which every emergency-category call site in the
repository requests — is stored with duration 0 and no timer is
scheduled for it. -/
theorem addAlert_requested_duration_stored (cfg : AlertConfig) (s : AlertState)
    (freshId : String) (now : Int) (message : String) (d : Int) :
    (addAlert cfg s freshId now message AlertType.emergency d).alerts.map Alert.duration
      = s.alerts.map Alert.duration ++ [some d]
    ∧ (d = 0 →
        (addAlert cfg s freshId now message AlertType.emergency d).timers = s.timers) := by
  constructor
  · simp [addAlert]
  · intro hd
    subst hd
    simp [addAlert]

/-- Witness for the amended C1 theorem at a concrete input. -/
theorem addAlert_requested_duration_stored_witness :
    (addAlert cfgR AlertState.empty "a1" 0 "help" AlertType.emergency 0).alerts.map
        Alert.duration = [] ++ [some 0]
    ∧ (addAlert cfgR AlertState.empty "a1" 0 "help" AlertType.emergency 0).timers = [] := by
  have h := addAlert_requested_duration_stored cfgR AlertState.empty "a1" 0 "help" 0
  exact ⟨h.1, h.2 rfl⟩

/-- Claim C2, counterexample: when the backend call of `sendServerAlert`
returns `success:false`, the function adds nothing at all — in
particular no `error`-category alert — so the engine state is left
exactly as it was, refuting the claim that exactly one local `error`
alert is added. -/
theorem sendServerAlert_rejection_adds_nothing :
    (sendServerAlert cfgR AlertState.empty "a1" 0 "hello" ApiAlertType.traffic
        Severity.medium ApiResult.failure).1 = AlertState.empty
    ∧ (sendServerAlert cfgR AlertState.empty "a1" 0 "hello" ApiAlertType.traffic
        Severity.medium ApiResult.failure).1.alerts.length = 0 := by
  exact ⟨rfl, rfl⟩

/-- Claim C2, amended: with a configured ride, a backend response with
`success:false` leaves the engine state entirely unchanged (no alert of
the requested category and no `error` alert is added); only a thrown
network error produces a local alert, namely exactly one `error`-category
alert with the fixed failure message. -/
theorem sendServerAlert_rejection_vs_network (cfg : AlertConfig) (s : AlertState)
    (freshId : String) (now : Int) (message : String) (type : ApiAlertType)
    (severity : Severity) (h : hasRide cfg = true) :
    (sendServerAlert cfg s freshId now message type severity ApiResult.failure).1 = s
    ∧ (sendServerAlert cfg s freshId now message type severity ApiResult.netError).1.alerts
        = s.alerts ++
          [{ id := freshId, message := "Failed to send alert to server",
             type := AlertType.error, timestamp := now, duration := some 5000,
             rideId := cfg.rideId, severity := none }] := by
  constructor
  · simp [sendServerAlert, h]
  · simp [sendServerAlert, h, addAlert]

/-- Witness for the amended C2 theorem at a concrete input. -/
theorem sendServerAlert_rejection_vs_network_witness :
    (sendServerAlert cfgR AlertState.empty "a1" 7 "hello" ApiAlertType.traffic
        Severity.medium ApiResult.failure).1 = AlertState.empty
    ∧ (sendServerAlert cfgR AlertState.empty "a1" 7 "hello" ApiAlertType.traffic
        Severity.medium ApiResult.netError).1.alerts
        = AlertState.empty.alerts ++
          [{ id := "a1", message := "Failed to send alert to server",
             type := AlertType.error, timestamp := 7, duration := some 5000,
             rideId := cfgR.rideId, severity := none }] :=
  sendServerAlert_rejection_vs_network cfgR AlertState.empty "a1" 7 "hello"
    ApiAlertType.traffic Severity.medium (by decide)

/-- Claim C4: `fetchUpdates` on a `success:true` response replaces the
member snapshot wholesale, stamps the update time, clears the error and
sets `isConnected`; on a `success:false` response or a thrown network
error it records an error and sets `isConnected = false` while leaving
the previously held member snapshot unchanged. -/
theorem fetchUpdates_success_replaces_failure_preserves (s : PollState) (now : Int)
    (data : List RideMember) :
    fetchUpdates s now (ApiResult.success data)
      = { members := data, isConnected := true, error := none, lastUpdate := some now }
    ∧ ((fetchUpdates s now ApiResult.failure).isConnected = false
        ∧ (fetchUpdates s now ApiResult.failure).error = some "Failed to fetch ride updates"
        ∧ (fetchUpdates s now ApiResult.failure).members = s.members)
    ∧ ((fetchUpdates s now ApiResult.netError).isConnected = false
        ∧ (fetchUpdates s now ApiResult.netError).error
            = some "Network error while fetching updates"
        ∧ (fetchUpdates s now ApiResult.netError).members = s.members) :=
  ⟨rfl, ⟨rfl, rfl, rfl⟩, rfl, rfl, rfl⟩

/-- Claim C5: with a configured ride and a backend response with
`success:true`, `sendEmergencyAlert(message)` adds exactly one local
alert; it has category `emergency`, its message is the given message
prefixed with `EMERGENCY: `, its stored duration is 0, and no expiry
timer is scheduled for it (the server-alert mirror is untouched and the
backend was contacted). -/
theorem sendEmergencyAlert_success_local_alert (cfg : AlertConfig) (s : AlertState)
    (freshId : String) (now : Int) (message : String) (a : ApiAlert)
    (h : hasRide cfg = true) :
    (sendEmergencyAlert cfg s freshId now message (ApiResult.success a)).1.alerts
      = s.alerts ++
        [{ id := freshId, message := "EMERGENCY: " ++ message,
           type := AlertType.emergency, timestamp := now, duration := some 0,
           rideId := cfg.rideId, severity := none }]
    ∧ (sendEmergencyAlert cfg s freshId now message (ApiResult.success a)).1.timers
        = s.timers
    ∧ (sendEmergencyAlert cfg s freshId now message (ApiResult.success a)).1.serverAlerts
        = s.serverAlerts
    ∧ (sendEmergencyAlert cfg s freshId now message (ApiResult.success a)).2 = true := by
  refine ⟨?_, ?_, ?_, ?_⟩ <;> simp [sendEmergencyAlert, h, addAlert]

/-- Witness for the C5 theorem at a concrete input (`"help"`, as in the
spec's Scenario B). -/
theorem sendEmergencyAlert_success_local_alert_witness :
    (sendEmergencyAlert cfgR AlertState.empty "a1" 3 "help"
        (ApiResult.success ⟨"sa1", "ride-1", "u1", ApiAlertType.emergency,
          "help", Severity.critical, 3⟩)).1.alerts
      = AlertState.empty.alerts ++
        [{ id := "a1", message := "EMERGENCY: " ++ "help",
           type := AlertType.emergency, timestamp := 3, duration := some 0,
           rideId := cfgR.rideId, severity := none }]
    ∧ (sendEmergencyAlert cfgR AlertState.empty "a1" 3 "help"
        (ApiResult.success ⟨"sa1", "ride-1", "u1", ApiAlertType.emergency,
          "help", Severity.critical, 3⟩)).1.timers = AlertState.empty.timers
    ∧ (sendEmergencyAlert cfgR AlertState.empty "a1" 3 "help"
        (ApiResult.success ⟨"sa1", "ride-1", "u1", ApiAlertType.emergency,
          "help", Severity.critical, 3⟩)).1.serverAlerts = AlertState.empty.serverAlerts
    ∧ (sendEmergencyAlert cfgR AlertState.empty "a1" 3 "help"
        (ApiResult.success ⟨"sa1", "ride-1", "u1", ApiAlertType.emergency,
          "help", Severity.critical, 3⟩)).2 = true :=
  sendEmergencyAlert_success_local_alert cfgR AlertState.empty "a1" 3 "help"
    ⟨"sa1", "ride-1", "u1", ApiAlertType.emergency, "help", Severity.critical, 3⟩
    (by decide)

/-- Claim C9: when the engine is configured without a ride identifier,
both `sendServerAlert` and `sendEmergencyAlert` return immediately: the
backend is not contacted (the returned flag is `false`) and the alert
state is left entirely unchanged, for every possible backend outcome. -/
theorem senders_unchanged_without_rideId (cfg : AlertConfig) (s : AlertState)
    (freshId : String) (now : Int) (message : String) (type : ApiAlertType)
    (severity : Severity) (r₁ r₂ : ApiResult ApiAlert) (h : cfg.rideId = none) :
    sendServerAlert cfg s freshId now message type severity r₁ = (s, false)
    ∧ sendEmergencyAlert cfg s freshId now message r₂ = (s, false) := by
  have hr : hasRide cfg = false := by simp [hasRide, h]
  constructor <;> simp [sendServerAlert, sendEmergencyAlert, hr]

/-- Witness for the C9 theorem at a concrete input. -/
theorem senders_unchanged_without_rideId_witness :
    sendServerAlert ⟨none, true⟩ AlertState.empty "a1" 0 "m" ApiAlertType.system
        Severity.low ApiResult.netError = (AlertState.empty, false)
    ∧ sendEmergencyAlert ⟨none, true⟩ AlertState.empty "a1" 0 "m" ApiResult.failure
        = (AlertState.empty, false) :=
  senders_unchanged_without_rideId ⟨none, true⟩ AlertState.empty "a1" 0 "m"
    ApiAlertType.system Severity.low ApiResult.netError ApiResult.failure rfl

/-- Claim C10: `clearAllAlerts` empties only the locally created alert
population: afterwards the merged `allAlerts` view contains no
local-origin alerts and is exactly the unchanged mapped view of every
server-synchronized alert. -/
theorem clearAllAlerts_local_only (s : AlertState) :
    (clearAllAlerts s).alerts = []
    ∧ (clearAllAlerts s).serverAlerts = s.serverAlerts
    ∧ allAlerts (clearAllAlerts s) = s.serverAlerts.map serverAlertView :=
  ⟨rfl, rfl, rfl⟩

/-- Claim C7: the feed handed to the map is unchanged when members
without both coordinates are dropped beforehand (they are excluded
entirely), and every entry handed to the map carries the coordinates of
a member whose latitude and longitude are both known — no marker is
produced at a default location. -/
theorem mapFeed_requires_coordinates (members : List RideMember) :
    mapFeed members = mapFeed (members.filter hasCoordinates)
    ∧ ∀ x ∈ mapFeed members, ∃ m, m ∈ members ∧ m.latitude = some x.location.1
        ∧ m.longitude = some x.location.2 ∧ x.id = m.id ∧ x.name = m.user.name := by
  constructor
  · simp [mapFeed, hasCoordinates, List.filter_filter]
  · intro x hx
    simp only [mapFeed, List.mem_map, List.mem_filter] at hx
    obtain ⟨m, ⟨hm, hp⟩, rfl⟩ := hx
    rw [Bool.and_eq_true] at hp
    refine ⟨m, hm, ?_, ?_, rfl, rfl⟩
    · rcases hl : m.latitude with _ | v
      · rw [hl] at hp
        simp at hp
      · simp [hl]
    · rcases hl : m.longitude with _ | v
      · rw [hl] at hp
        simp at hp
      · simp [hl]

/-- Witness for the C7 theorem at a concrete roster, extracting the
existence of a source member for the one produced map entry. -/
theorem mapFeed_requires_coordinates_witness :
    mapFeed msWithAndWithout = mapFeed (msWithAndWithout.filter hasCoordinates)
    ∧ ∃ m, m ∈ msWithAndWithout ∧ m.latitude = some (10 : Int)
        ∧ m.longitude = some (20 : Int) ∧ "m1" = m.id ∧ "Ana" = m.user.name :=
  ⟨(mapFeed_requires_coordinates msWithAndWithout).1,
   (mapFeed_requires_coordinates msWithAndWithout).2
     { id := "m1", name := "Ana", status := "on-route", location := (10, 20) }
     (by decide)⟩

/-- Claim C8: one anomaly-detection pass issues exactly one `addAlert`
request per member whose last location update is known and lies more
than 5 minutes before `now` (in roster order), and no request for any
other member; each issued request is a `warning` with display duration
10000 whose message names the member. -/
theorem anomalyPass_stale_members (now : Int) (members : List RideMember) :
    anomalyPass now members = (members.filter (staleAt now)).map anomalyRequest
    ∧ ∀ m : RideMember, (anomalyRequest m).type = AlertType.warning
        ∧ (anomalyRequest m).duration = 10000
        ∧ (anomalyRequest m).message
            = "Location anomaly: " ++ m.user.name
              ++ " has not updated location for over 5 minutes" := by
  constructor
  · have hf : ∀ l : List RideMember,
        l.foldr (fun m acc => if staleAt now m then anomalyRequest m :: acc else acc) []
          = (l.filter (staleAt now)).map anomalyRequest := by
      intro l
      induction l with
      | nil => rfl
      | cons m' rest' ih =>
          rw [List.foldr_cons, ih, List.filter_cons]
          by_cases h : staleAt now m' = true <;> simp [h]
    rcases members with _ | ⟨m, rest⟩
    · rfl
    · simpa [anomalyPass] using hf (m :: rest)
  · intro m
    exact ⟨rfl, rfl, rfl⟩

/-- Any trace of benign events (upload resolutions, geolocation errors,
further stops — no restart, no geolocation success callback) preserves a
cleared tracking state. -/
theorem locRun_benign_preserves_cleared (evs : List LocEvent) :
    ∀ s : LocState, s.isTracking = false → s.currentLocation = none →
      evs.all postStopBenign = true →
      (locRun s evs).isTracking = false ∧ (locRun s evs).currentLocation = none := by
  induction evs with
  | nil => exact fun s hs hc _ => ⟨hs, hc⟩
  | cons e rest ih =>
      intro s hs hc hall
      rw [List.all_cons, Bool.and_eq_true] at hall
      have hstep : (locStep s e).isTracking = false ∧ (locStep s e).currentLocation = none := by
        cases e with
        | start => simp [postStopBenign] at hall
        | stop => exact ⟨rfl, rfl⟩
        | geoSuccess lat lng acc now => simp [postStopBenign] at hall
        | geoError code => exact ⟨rfl, hc⟩
        | syncDone now result =>
            cases result with
            | success d => exact ⟨hs, hc⟩
            | failure => exact ⟨hs, hc⟩
            | netError => exact ⟨hs, hc⟩
      exact ih (locStep s e) hstep.1 hstep.2 hall.2

/-- Claim C6, counterexample: stopping while a single-fix position
request (`getCurrentPosition`) is in flight does not keep the state
cleared — when the pending success callback fires after the stop,
`handleSuccess` stores the sample and `currentPosition` becomes non-null
again, refuting the claim that post-stop state stays fully cleared for
every in-flight request. -/
theorem stop_then_geoSuccess_resurrects :
    (locRun (locStep locTracking LocEvent.stop)
      [LocEvent.geoSuccess 3 4 5 9]).currentLocation
      = some (⟨3, 4, some 5, 9⟩ : LocationData)
    ∧ (locRun (locStep locTracking LocEvent.stop)
      [LocEvent.geoSuccess 3 4 5 9]).currentLocation ≠ none := by
  exact ⟨rfl, by decide⟩

/-- Claim C6, amended: once `stopTracking` has run, as long as only
in-flight upload resolutions, geolocation error callbacks or further
stops are delivered (no restart and no pending geolocation success
callback), the state never again has `isTracking = true` or a non-null
`currentPosition`; a pending `getCurrentPosition` success callback, by
contrast, does re-set `currentPosition`. -/
theorem stopTracking_stays_cleared (s : LocState) (evs : List LocEvent)
    (h : evs.all postStopBenign = true) :
    (locRun (locStep s LocEvent.stop) evs).isTracking = false
    ∧ (locRun (locStep s LocEvent.stop) evs).currentLocation = none :=
  locRun_benign_preserves_cleared evs (locStep s LocEvent.stop) rfl rfl h

/-- Witness for the amended C6 theorem: a stop with an upload in flight,
followed by that upload's resolution, a failing upload, a late
geolocation error and another stop. -/
theorem stopTracking_stays_cleared_witness :
    (locRun (locStep locTracking LocEvent.stop)
      [LocEvent.syncDone 4 (ApiResult.success ()), LocEvent.syncDone 6 ApiResult.failure,
       LocEvent.geoError GeoErrorCode.timeout, LocEvent.stop]).isTracking = false
    ∧ (locRun (locStep locTracking LocEvent.stop)
      [LocEvent.syncDone 4 (ApiResult.success ()), LocEvent.syncDone 6 ApiResult.failure,
       LocEvent.geoError GeoErrorCode.timeout, LocEvent.stop]).currentLocation = none :=
  stopTracking_stays_cleared
    locTracking
    [LocEvent.syncDone 4 (ApiResult.success ()), LocEvent.syncDone 6 ApiResult.failure,
     LocEvent.geoError GeoErrorCode.timeout, LocEvent.stop]
    (by decide)

/-! ### Lemmas about the marker reconciler -/

/-- `storeSet` does not change whether a key is present. -/
theorem storeGet_storeSet_isSome (s : MarkerStore) (id : String) (pos : Int × Int)
    (k : String) : (storeGet (storeSet s id pos) k).isSome = (storeGet s k).isSome := by
  induction s with
  | nil => rfl
  | cons e rest ih =>
      show (storeGet ((if e.1 == id then (e.1, pos) else e) :: storeSet rest id pos) k).isSome
        = _
      by_cases h : e.1 == id
      · by_cases h2 : e.1 == k <;> simp [storeGet, h, h2, ih]
      · by_cases h2 : e.1 == k <;> simp [storeGet, h, h2, ih]

/-- Lookup in an appended store: the left part takes precedence. -/
theorem storeGet_append (s t : MarkerStore) (k : String) :
    storeGet (s ++ t) k
      = match storeGet s k with
        | some v => some v
        | none => storeGet t k := by
  induction s with
  | nil => rfl
  | cons e rest ih =>
      by_cases h : e.1 == k <;> simp [storeGet, h, ih]

/-- The add-or-update phase never drops a key. -/
theorem storeGet_isSome_addUpdatePhase (members : List MapMember) :
    ∀ (s : MarkerStore) (k : String), (storeGet s k).isSome = true →
      (storeGet (addUpdatePhase members s).1 k).isSome = true := by
  induction members with
  | nil => exact fun s k h => h
  | cons m0 rest ih =>
      intro s k h
      cases hget : storeGet s m0.id with
      | some p =>
          simp only [addUpdatePhase, hget]
          exact ih _ _ (by rw [storeGet_storeSet_isSome]; exact h)
      | none =>
          simp only [addUpdatePhase, hget]
          refine ih _ _ ?_
          rw [storeGet_append]
          rcases hk : storeGet s k with _ | v
          · rw [hk] at h; simp at h
          · simp

/-- After the add-or-update phase, every member's id has a marker. -/
theorem member_ids_present (members : List MapMember) :
    ∀ (s : MarkerStore), ∀ m ∈ members,
      (storeGet (addUpdatePhase members s).1 m.id).isSome = true := by
  induction members with
  | nil => intro s m hm; cases hm
  | cons m0 rest ih =>
      intro s m hm
      rcases List.mem_cons.mp hm with rfl | hm'
      · cases hget : storeGet s m.id with
        | some p =>
            simp only [addUpdatePhase, hget]
            apply storeGet_isSome_addUpdatePhase
            rw [storeGet_storeSet_isSome, hget]
            rfl
        | none =>
            simp only [addUpdatePhase, hget]
            apply storeGet_isSome_addUpdatePhase
            rw [storeGet_append, hget]
            simp [storeGet]
      · cases hget : storeGet s m0.id with
        | some p =>
            simp only [addUpdatePhase, hget]
            exact ih _ m hm'
        | none =>
            simp only [addUpdatePhase, hget]
            exact ih _ m hm'

/-- Every marker left by the add-or-update phase either was already in
the store (same key) or belongs to some member. -/
theorem addUpdatePhase_keys (members : List MapMember) :
    ∀ (s : MarkerStore), ∀ e ∈ (addUpdatePhase members s).1,
      (∃ e' ∈ s, e'.1 = e.1) ∨ ∃ m ∈ members, m.id = e.1 := by
  induction members with
  | nil => exact fun s e he => .inl ⟨e, he, rfl⟩
  | cons m0 rest ih =>
      intro s e he
      cases hget : storeGet s m0.id with
      | some p =>
          simp only [addUpdatePhase, hget] at he
          rcases ih _ e he with ⟨e', he', hk⟩ | ⟨m, hm, hk⟩
          · obtain ⟨a, ha, rfl⟩ := List.mem_map.mp he'
            left
            refine ⟨a, ha, ?_⟩
            rw [← hk]
            by_cases h : a.1 == m0.id <;> simp [h]
          · exact .inr ⟨m, List.mem_cons_of_mem _ hm, hk⟩
      | none =>
          simp only [addUpdatePhase, hget] at he
          rcases ih _ e he with ⟨e', he', hk⟩ | ⟨m, hm, hk⟩
          · rcases List.mem_append.mp he' with h1 | h2
            · exact .inl ⟨e', h1, hk⟩
            · right
              refine ⟨m0, List.mem_cons_self _ _, ?_⟩
              have : e' = (m0.id, m0.location) := by simpa using h2
              rw [← hk, this]
          · exact .inr ⟨m, List.mem_cons_of_mem _ hm, hk⟩

/-- The removal phase is a no-op on a store all of whose keys belong to
current members. -/
theorem removePhase_all_kept (store : MarkerStore) (members : List MapMember)
    (h : ∀ e ∈ store, members.any (fun m => m.id == e.1) = true) :
    removePhase store members = (store, []) := by
  unfold removePhase
  refine Prod.ext ?_ ?_
  · simp only
    exact List.filter_eq_self.mpr h
  · simp only
    have : store.filter (fun e => !members.any (fun m => m.id == e.1)) = [] := by
      rw [List.filter_eq_nil_iff]
      intro e he
      simp [h e he]
    rw [this]
    rfl

/-- When every member's id already has a marker, the add-or-update phase
degenerates to the pure position sweep and logs exactly one update per
member. -/
theorem addUpdatePhase_all_present (members : List MapMember) :
    ∀ (s : MarkerStore), (∀ m ∈ members, (storeGet s m.id).isSome = true) →
      addUpdatePhase members s
        = (updOnly members s, members.map fun m => MarkerOp.update m.id m.location) := by
  induction members with
  | nil => intro s _; rfl
  | cons m0 rest ih =>
      intro s h
      have h0 := h m0 (List.mem_cons_self _ _)
      rcases hget : storeGet s m0.id with _ | p
      · rw [hget] at h0; simp at h0
      · simp only [addUpdatePhase, hget]
        rw [ih (storeSet s m0.id m0.location)
          (fun m hm => by
            rw [storeGet_storeSet_isSome]
            exact h m (List.mem_cons_of_mem _ hm))]
        rfl

/-- The pure position sweep rewrites each marker with the location of
the last member carrying its key, and leaves other markers alone. -/
theorem updOnly_eq_map (members : List MapMember) :
    ∀ u : MarkerStore,
      updOnly members u
        = u.map (fun e =>
            match lastLoc members e.1 with
            | some p => (e.1, p)
            | none => e) := by
  induction members with
  | nil =>
      intro u
      show u = _
      rw [show (fun (e : String × (Int × Int)) =>
          match lastLoc [] e.1 with
          | some p => (e.1, p)
          | none => e) = fun e => e from rfl]
      rw [List.map_id']
  | cons m0 rest ih =>
      intro u
      rw [show updOnly (m0 :: rest) u = updOnly rest (storeSet u m0.id m0.location) from rfl,
          ih]
      rw [show storeSet u m0.id m0.location
            = u.map (fun e => if e.1 == m0.id then (e.1, m0.location) else e) from rfl]
      rw [List.map_map]
      have hfun : ∀ e : String × (Int × Int),
          (fun e =>
            match lastLoc rest e.1 with
            | some p => (e.1, p)
            | none => e)
          ((fun e => if e.1 == m0.id then (e.1, m0.location) else e) e)
          = match lastLoc (m0 :: rest) e.1 with
            | some p => (e.1, p)
            | none => e := by
        intro e
        have hif : ((if e.1 == m0.id then (e.1, m0.location) else e) : String × (Int × Int))
            = (e.1, if e.1 == m0.id then m0.location else e.2) := by
          by_cases hb : e.1 == m0.id <;> simp [hb]
        simp only [hif]
        cases hl : lastLoc rest e.1 with
        | some p => simp [lastLoc, hl]
        | none =>
            by_cases h : e.1 = m0.id
            · rw [h] at hl
              simp [lastLoc, hl, h]
            · have hne : (m0.id == e.1) = false := by
                simp [Ne.symm h]
              have hne' : (e.1 == m0.id) = false := by
                simp [h]
              simp [lastLoc, hl, hne, hne']
      have hcomp : ((fun e : String × (Int × Int) =>
            match lastLoc rest e.1 with
            | some p => (e.1, p)
            | none => e) ∘
          (fun e : String × (Int × Int) =>
            if e.1 == m0.id then (e.1, m0.location) else e))
          = fun e : String × (Int × Int) =>
              match lastLoc (m0 :: rest) e.1 with
              | some p => (e.1, p)
              | none => e :=
        funext hfun
      rw [hcomp]

/-- Markers whose key no member of the list carries pass through the
add-or-update phase untouched. -/
theorem addUpdatePhase_untouched (members : List MapMember) :
    ∀ (s : MarkerStore) (k : String), lastLoc members k = none →
      ∀ e ∈ (addUpdatePhase members s).1, e.1 = k → e ∈ s := by
  induction members with
  | nil => exact fun s k _ e he _ => he
  | cons m0 rest ih =>
      intro s k hll e he hk
      have hrest : lastLoc rest k = none := by
        cases hl : lastLoc rest k with
        | some p => simp [lastLoc, hl] at hll
        | none => rfl
      have hm0 : ¬ m0.id = k := by
        intro hid
        simp [lastLoc, hrest, hid] at hll
      cases hget : storeGet s m0.id with
      | some p =>
          simp only [addUpdatePhase, hget] at he
          have hmem := ih _ k hrest e he hk
          obtain ⟨a, ha, rfl⟩ := List.mem_map.mp hmem
          by_cases h : a.1 == m0.id
          · exfalso
            apply hm0
            have ha1 : a.1 = m0.id := by simpa using h
            rw [← hk]
            simp [h, ha1]
          · simpa [h] using ha
      | none =>
          simp only [addUpdatePhase, hget] at he
          have hmem := ih _ k hrest e he hk
          rcases List.mem_append.mp hmem with h1 | h2
          · exact h1
          · exfalso
            have : e = (m0.id, m0.location) := by simpa using h2
            apply hm0
            rw [← hk, this]

/-- `storeSet` writes the given position into every marker stored under
the given key. -/
theorem storeSet_key_value (s : MarkerStore) (id : String) (pos : Int × Int) :
    ∀ e ∈ storeSet s id pos, e.1 = id → e.2 = pos := by
  intro e he hk
  obtain ⟨a, ha, rfl⟩ := List.mem_map.mp he
  by_cases h : a.1 == id
  · simp [h]
  · exfalso
    rw [if_neg (by simpa using h)] at hk
    exact absurd hk (by simpa using h)

/-- A key that `storeGet` misses occurs nowhere in the store. -/
theorem storeGet_none_no_key (s : MarkerStore) (k : String) :
    storeGet s k = none → ∀ e ∈ s, ¬ e.1 = k := by
  induction s with
  | nil => intro _ e he; cases he
  | cons e0 rest ih =>
      intro h e he
      have h0 : (e0.1 == k) = false := by
        by_cases hb : e0.1 == k
        · simp [storeGet, hb] at h
        · simpa using hb
      rcases List.mem_cons.mp he with rfl | he'
      · simpa using h0
      · refine ih ?_ e he'
        simpa [storeGet, h0] using h

/-- After the add-or-update phase, a marker whose key is carried by some
member holds the last such member's location. -/
theorem addUpdatePhase_value_lastLoc (members : List MapMember) :
    ∀ (s : MarkerStore), ∀ e ∈ (addUpdatePhase members s).1,
      ∀ p, lastLoc members e.1 = some p → e.2 = p := by
  induction members with
  | nil =>
      intro s e _ p hll
      simp [lastLoc] at hll
  | cons m0 rest ih =>
      intro s e he p hll
      cases hget : storeGet s m0.id with
      | some q =>
          simp only [addUpdatePhase, hget] at he
          cases hl : lastLoc rest e.1 with
          | some p' =>
              have hp : p' = p := by simpa [lastLoc, hl] using hll
              exact hp ▸ ih _ e he p' hl
          | none =>
              have hm0 : m0.id = e.1 ∧ m0.location = p := by
                by_cases hid : m0.id = e.1
                · refine ⟨hid, ?_⟩
                  simpa [lastLoc, hl, hid] using hll
                · exfalso
                  simp [lastLoc, hl, hid] at hll
              have hes : e ∈ storeSet s m0.id m0.location :=
                addUpdatePhase_untouched rest _ e.1 hl e he rfl
              rw [← hm0.2]
              exact storeSet_key_value s m0.id m0.location e hes hm0.1.symm
      | none =>
          simp only [addUpdatePhase, hget] at he
          cases hl : lastLoc rest e.1 with
          | some p' =>
              have hp : p' = p := by simpa [lastLoc, hl] using hll
              exact hp ▸ ih _ e he p' hl
          | none =>
              have hm0 : m0.id = e.1 ∧ m0.location = p := by
                by_cases hid : m0.id = e.1
                · refine ⟨hid, ?_⟩
                  simpa [lastLoc, hl, hid] using hll
                · exfalso
                  simp [lastLoc, hl, hid] at hll
              have hes : e ∈ s ++ [(m0.id, m0.location)] :=
                addUpdatePhase_untouched rest _ e.1 hl e he rfl
              rcases List.mem_append.mp hes with h1 | h2
              · exact absurd hm0.1.symm (storeGet_none_no_key s m0.id hget e h1)
              · have : e = (m0.id, m0.location) := by simpa using h2
                rw [this, ← hm0.2]

/-- The pure position sweep fixes a store whose markers already hold
their members' last locations. -/
theorem updOnly_fixed (members : List MapMember) (s : MarkerStore)
    (hv : ∀ e ∈ s, ∀ p, lastLoc members e.1 = some p → e.2 = p) :
    updOnly members s = s := by
  rw [updOnly_eq_map]
  induction s with
  | nil => rfl
  | cons e rest ih =>
      rw [List.map_cons]
      have he : (match lastLoc members e.1 with
          | some p => (e.1, p)
          | none => e) = e := by
        cases hl : lastLoc members e.1 with
        | some p =>
            have := hv e (List.mem_cons_self _ _) p hl
            simp [← this]
        | none => rfl
      rw [he, ih (fun e' he' p hp => hv e' (List.mem_cons_of_mem _ he') p hp)]

/-- Claim C3, counterexample: reconciling a second time against the
same, unchanged one-member list is not operation-free — the second pass
performs a position-update operation on the existing marker (the source
calls `setPosition` unconditionally for every still-present member),
refuting the claim that no create/update/remove operations happen beyond
the first pass. -/
theorem updateMarkers_second_pass_not_silent :
    (updateMarkers [] [mmAna]).2 = [MarkerOp.create "m1" (10, 20)]
    ∧ (updateMarkers (updateMarkers [] [mmAna]).1 [mmAna]).2
        = [MarkerOp.update "m1" (10, 20)]
    ∧ (updateMarkers (updateMarkers [] [mmAna]).1 [mmAna]).2 ≠ [] := by
  refine ⟨rfl, rfl, ?_⟩
  decide

/-- Claim C3, amended: marker reconciliation is idempotent at the state
level, and the second pass against the same, unchanged member list
performs no create and no remove operations — but it does re-issue one
position-update operation per member, leaving the marker store exactly
as the first pass left it. -/
theorem updateMarkers_idempotent_amended (store : MarkerStore) (members : List MapMember) :
    updateMarkers (updateMarkers store members).1 members
      = ((updateMarkers store members).1,
         members.map fun m => MarkerOp.update m.id m.location) := by
  have hfst : (updateMarkers store members).1
      = (addUpdatePhase members
          (store.filter (fun e => members.any (fun m => m.id == e.1)))).1 := rfl
  have hkeys : ∀ e ∈ (updateMarkers store members).1,
      members.any (fun m => m.id == e.1) = true := by
    intro e he
    rw [hfst] at he
    rcases addUpdatePhase_keys members _ e he with ⟨e', he', hk⟩ | ⟨m, hm, hk⟩
    · have := (List.mem_filter.mp he').2
      rwa [hk] at this
    · exact List.any_eq_true.mpr ⟨m, hm, by simp [hk]⟩
  have hrem : removePhase (updateMarkers store members).1 members
      = ((updateMarkers store members).1, []) :=
    removePhase_all_kept _ _ hkeys
  have hpresent : ∀ m ∈ members,
      (storeGet (updateMarkers store members).1 m.id).isSome = true := by
    intro m hm
    rw [hfst]
    exact member_ids_present members _ m hm
  have hadd : addUpdatePhase members (updateMarkers store members).1
      = (updOnly members (updateMarkers store members).1,
         members.map fun m => MarkerOp.update m.id m.location) :=
    addUpdatePhase_all_present members _ hpresent
  have hfix : updOnly members (updateMarkers store members).1
      = (updateMarkers store members).1 := by
    refine updOnly_fixed members _ ?_
    intro e he p hll
    rw [hfst] at he
    exact addUpdatePhase_value_lastLoc members _ e he p hll
  show ((addUpdatePhase members (removePhase (updateMarkers store members).1 members).1).1,
      (removePhase (updateMarkers store members).1 members).2
        ++ (addUpdatePhase members (removePhase (updateMarkers store members).1 members).1).2)
    = _
  rw [hrem]
  simp only
  rw [hadd, hfix]
  simp

end RideSync
